import Mathlib

/-!
Verification development for the header-inference and record-extraction
pipeline of the Knowledge-Base-LangChain repository
(`data_preprocessing/config_generator.py` and
`data_preprocessing/data_processor.py`).

The pipeline is shallowly embedded over a grid of cell values.  A sheet is a
`Grid` (list of rows of `Cell`s).  The Excel reading layer (pandas with the
openpyxl engine) is modelled faithfully where its behaviour is observable by
the program:

* an empty Excel cell is delivered as `Cell.empty` (pandas converts the
  openpyxl `""` placeholder to `NaN`),
* per row, trailing empty cells are trimmed, trailing fully blank rows are
  dropped, and every remaining row is padded back to the frame's maximum
  width with empty cells (`get_sheet_data`); the parser's
  `skip_blank_lines` pass then removes only rows that reach it with at most
  one cell, so blank rows of sheets at least two columns wide survive as
  all-empty rows (`readGrid` below),
* for a list-valued `header` (always the case in `load_data_from_sheet`)
  the requested header rows are horizontally forward-filled by
  `fill_mi_header` before column names are assigned.

Numeric cells are modelled as exact rationals (`Cell.num`); the integer
representation produced by the `astype('Int64')` coercion is `Cell.int`.
Temporal cells carry an abstract payload.  The decimal string rendering of
non-integral numerics and of temporal values is abstracted in `pyStr`; no
property below depends on it.
-/

namespace KBL

/-- A spreadsheet cell as seen by the extraction pipeline.  `empty` is a blank
cell (pandas `NaN`); `num` is a numeric cell (pandas reads every Excel number
as a float, modelled as an exact rational); `int` is the nullable-integer
representation produced only by the whole-number coercion step; `temporal`
is a date/time cell with an abstract payload; `text` is a string cell. -/
inductive Cell where
  | empty : Cell
  | num (q : ℚ) : Cell
  | int (n : ℤ) : Cell
  | temporal (t : ℕ) : Cell
  | text (s : String) : Cell
deriving DecidableEq, Repr

abbrev Grid := List (List Cell)

/-! Char-list implementations of the Python string operations the source
uses (`strip`, `startswith`, `split('-')`, `'-' in s`, `replace('\n',' ')`).
They are semantically the corresponding `String` library functions, stated
over `String.data` so that concrete pipeline runs reduce inside the
kernel. -/

/-- Strip leading and trailing whitespace (Python `str.strip()`). -/
def trimChars (cs : List Char) : List Char :=
  ((cs.dropWhile Char.isWhitespace).reverse.dropWhile Char.isWhitespace).reverse

/-- Python `str.strip()` on a `String`. -/
def pytrim (s : String) : String :=
  String.mk (trimChars s.data)

/-- Python `s.strip() == ''`: the string is all whitespace. -/
def isBlankStr (s : String) : Bool :=
  s.data.all Char.isWhitespace

/-- Python `s.startswith(p)`. -/
def strStartsWith (s p : String) : Bool :=
  p.data.isPrefixOf s.data

/-- Python `'-' in s`. -/
def strContainsDash (s : String) : Bool :=
  s.data.contains '-'

/-- Python `s.replace('\n', ' ')`. -/
def replaceNl (s : String) : String :=
  String.mk (s.data.map (fun c => if c = '\n' then ' ' else c))

/-- Split a character list at every separator occurrence (Python
`str.split(sep)` for a one-character separator). -/
def splitChar (sep : Char) : List Char → List (List Char)
  | [] => [[]]
  | c :: cs =>
    match splitChar sep cs with
    | [] => [[c]]
    | h :: t => if c = sep then [] :: h :: t else (c :: h) :: t

/-- Python `s.split('-')`. -/
def pySplitDash (s : String) : List String :=
  (splitChar '-' s.data).map String.mk

/-- Python `str(v)` of a cell value, as used for header names and metadata.
The rendering of non-integral numbers and temporal payloads is an abstract
stand-in (no verified property depends on those strings). -/
def pyStr : Cell → String
  | .empty => "nan"
  | .num q => if q.den = 1 then toString q.num ++ ".0" else toString q
  | .int n => toString n
  | .temporal t => "temporal-" ++ toString t
  | .text s => s

/-- Trailing empty cells of a row, as trimmed by the pandas openpyxl reader
(trailing `""` conversions are popped from each row). -/
def trimTrailing (r : List Cell) : List Cell :=
  (r.reverse.dropWhile (fun c => c = Cell.empty)).reverse

/-- A line the pandas `TextParser` removes in its `skip_blank_lines` pass:
rows reach the parser already padded to the frame width, so only rows of
length at most one — an empty row or a single blank-ish cell — are
removed. -/
def blankLine (r : List Cell) : Bool :=
  match r with
  | [] => true
  | [c] => match c with
    | .empty => true
    | .text s => isBlankStr s
    | _ => false
  | _ => false

/-- Number of columns of a (possibly ragged) grid. -/
def widthG (g : Grid) : ℕ :=
  g.foldr (fun r w => max r.length w) 0

/-- Pad a row with empty cells up to width `w` (the openpyxl layer pads
short rows with `""`, and pandas pads with `NaN`). -/
def padTo (w : ℕ) (r : List Cell) : List Cell :=
  r ++ List.replicate (w - r.length) Cell.empty

/-- Trailing rows that trimmed to nothing, removed by the openpyxl layer
(`data = data[: last_row_with_data + 1]`). -/
def trimTrailingRows (g : Grid) : Grid :=
  (g.reverse.dropWhile (fun r => r.isEmpty)).reverse

/-- The frame `pd.read_excel` (openpyxl engine) delivers to the program:
per-row trailing blanks trimmed, trailing blank rows dropped, every row
padded back to the frame's maximum width (`get_sheet_data`), and then the
parser's `skip_blank_lines` pass, which — because rows arrive padded — can
remove blank rows only when the frame is at most one column wide.  Interior
blank rows of wider sheets therefore survive as all-empty rows. -/
def readGrid (g : Grid) : Grid :=
  let rows := trimTrailingRows (g.map trimTrailing)
  let w := widthG rows
  (rows.map (padTo w)).filter (fun r => !blankLine r)

/-- A cell counted as numeric/temporal by the data-row heuristic
(`isinstance(val, (int, float, complex))` or a pandas/py datetime type). -/
def isNumericCell : Cell → Bool
  | .num _ => true
  | .int _ => true
  | .temporal _ => true
  | _ => false

/-- Number of non-null cells of a row (`row.count()`). -/
def rowCount (r : List Cell) : ℕ :=
  (r.filter (fun c => !(c = Cell.empty : Bool))).length

/-- Number of numeric-or-temporal cells of a row. -/
def rowNumericCount (r : List Cell) : ℕ :=
  (r.filter (fun c => isNumericCell c)).length

/-- The data-row test of `detect_header_and_merge_count`: at least one
non-null cell, and the numeric ratio strictly exceeds 0.4 (stated over
naturals: `numeric / total > 2 / 5  ↔  5 * numeric > 2 * total`). -/
def isDataRow (r : List Cell) : Bool :=
  0 < rowCount r && 2 * rowCount r < 5 * rowNumericCount r

/-- Count of contiguous content rows scanning upward from row `n - 1`
down to row 0, stopping at (and excluding) the first row with no non-null
cell (the `merge_count` upward loops of the detector). -/
def upFrom (g : Grid) (n : ℕ) : ℕ :=
  (((g.take n).reverse).takeWhile (fun r => 0 < rowCount r)).length

/-- Index of the row with the strictly greatest non-null count, first
occurrence winning (the max-non-nulls fallback loop, with `max_non_null`
started at `-1`). -/
def argmaxCount (g : Grid) : ℕ :=
  (g.enum.foldl
    (fun best p => if (rowCount p.2 : ℤ) > best.2 then (p.1, (rowCount p.2 : ℤ)) else best)
    (0, (-1 : ℤ))).1

/-- The detector `detect_header_and_merge_count`: returns
`(header_row_number (1-based), merge_rows_count)`.  The scanned frame is the
first `maxScan` sheet rows as delivered by the read layer (the openpyxl
reader stops collecting after `nrows` rows and then trims, pads and — for
width-one frames — drops blank lines). -/
def detect_header_and_merge_count (g : Grid) (maxScan : ℕ := 20) : ℕ × ℕ :=
  let df := readGrid (g.take maxScan)
  if df.isEmpty then (1, 1)
  else
    match df.findIdx? isDataRow with
    | some i => if 0 < i then (i, upFrom df i) else (1, 1)
    | none =>
      let hIdx := argmaxCount df
      (hIdx + 1, 1 + upFrom df hIdx)

/-- The caller-supplied merge normalization of `generate_config`
(`pre_process/config_generator.py`): a merge count exceeding the header end
row is clamped down to it, with a warning. -/
def normalize_merge (header_num merge_rows : ℕ) : ℕ :=
  if merge_rows > header_num then header_num else merge_rows

/-! ## Excluded-rows parsing (`data_processor._parse_excluded_rows`) -/

/-- One persisted `excluded_rows` entry: a JSON integer or a string
(intended as an `"a-b"` range). -/
inductive ExclEntry where
  | int (n : ℤ) : ExclEntry
  | str (s : String) : ExclEntry
deriving DecidableEq, Repr

/-- Python `int(s)` on the substrings produced by `split('-')`: surrounding
whitespace stripped, an optional sign, then a non-empty run of decimal
digits.  (Underscore digit grouping is not modelled.) -/
def pyInt (s : String) : Option ℤ :=
  let digits : List Char → Option ℤ := fun cs =>
    if cs ≠ [] ∧ cs.all Char.isDigit then
      some ((cs.foldl (fun a c => 10 * a + ((c.toNat : ℤ) - 48)) 0))
    else none
  match trimChars s.data with
  | '+' :: cs => digits cs
  | '-' :: cs => (digits cs).map (fun n => -n)
  | cs => digits cs

/-- The range parse `start, end = map(int, item.split('-'))`: succeeds exactly when the
split yields two tokens and both parse as integers; anything else raises
`ValueError` in the source (caught and warned about). -/
def parseRange (s : String) : Option (ℤ × ℤ) :=
  match (pySplitDash s).mapM pyInt with
  | some [a, b] => some (a, b)
  | _ => none

/-- Contribution of a single `excluded_rows` entry to the exclusion set:
an integer is added directly; a string containing `'-'` that splits into
two integers `a ≤ b` contributes the inclusive range; every other entry
contributes nothing. -/
def entryRows (e : ExclEntry) : Finset ℤ :=
  match e with
  | .int n => {n}
  | .str s =>
    if strContainsDash s then
      match parseRange s with
      | some (a, b) => if a ≤ b then Finset.Icc a b else ∅
      | none => ∅
    else ∅

/-- Model of `_parse_excluded_rows`: folds the config entries into a set of original
spreadsheet row numbers. -/
def parse_excluded_rows (cfg : List ExclEntry) : Finset ℤ :=
  cfg.foldl (fun acc e => acc ∪ entryRows e) ∅

/-- Whether an entry triggers the `Could not parse range` warning: a string
containing `'-'` whose `split('-')` does not yield exactly two integers. -/
def entryWarn (e : ExclEntry) : Bool :=
  match e with
  | .str s => strContainsDash s && (parseRange s).isNone
  | _ => false

/-- Number of parse warnings `_parse_excluded_rows` emits for a config. -/
def parse_warnings (cfg : List ExclEntry) : ℕ :=
  (cfg.filter entryWarn).length

/-- The row-exclusion step of `_load_and_clean_sheet` (row mode, where the
data block's positional indices coincide with its index labels): expand the
config, map each original row number `o` to `o - (header_num + 1)`, drop the
mapped indices lying within the current bounds, and report the number of
rows removed.  Returns the surviving rows and the reported count. -/
def applyExclusion {α : Type} (excl : List ExclEntry) (header_num : ℕ)
    (rows : List α) : List α × ℕ :=
  if excl.isEmpty then (rows, 0)
  else
    let parsed := parse_excluded_rows excl
    let dropSet : Finset ℤ :=
      (parsed.image (fun o => o - ((header_num : ℤ) + 1))).filter
        (fun i => 0 ≤ i ∧ i < (rows.length : ℤ))
    let kept := (rows.enum.filter (fun p => !((p.1 : ℤ) ∈ dropSet : Bool))).map (·.2)
    (kept, rows.length - kept.length)

/-! ## Row-mode extraction
(`data_processor.load_data_from_sheet` + `_load_and_clean_sheet`).

Grids model the sheet's rectangular used range as delivered by openpyxl;
rows are conceptually equal length, with trailing blanks trimmed by the
reader and re-padded with `Cell.empty` (`padTo`). -/

/-- Per-sheet configuration (`SheetConfig` of the persisted document). -/
structure SheetCfg where
  header_row : ℕ
  merge_rows : ℕ
  excluded_rows : List ExclEntry
deriving DecidableEq, Repr

/-- One part of a merged multi-row header name: a non-null cell whose
trimmed string is non-empty and is not an `Unnamed:` placeholder (an empty
header cell surfaces as an `Unnamed: c_level_k` placeholder in the
MultiIndex and is filtered by the `startswith` test). -/
def mergedPart (c : Cell) : Option String :=
  match c with
  | .empty => none
  | c =>
    let t := pytrim (pyStr c)
    if t = "" ∨ strStartsWith t "Unnamed:" then none else some t

/-- The loop body of pandas `fill_mi_header` over the cells of a header row
after position 0, carrying the running `last` value and the `control_row`
tail: a cell outside the control (`not control_row[i]`) first resets `last`
to itself; a blank cell is then overwritten with `last`; a non-blank cell
clears its control flag and becomes the new `last`. -/
def fillMiAux : Cell → List Cell → List Bool → List Cell × List Bool
  | _, [], _ => ([], [])
  | last, c :: cs, ctl =>
    let b := ctl.headD true
    let last1 := if b then last else c
    match c with
    | Cell.empty =>
      let r := fillMiAux last1 cs ctl.tail
      (last1 :: r.1, b :: r.2)
    | c' =>
      let r := fillMiAux c' cs ctl.tail
      (c' :: r.1, false :: r.2)

/-- Pandas `fill_mi_header(row, control_row)`: the horizontal forward fill
`read_excel` applies to each requested header row when `header` is a list
(as it always is in `load_data_from_sheet`).  Position 0 is never filled and
its control flag is never cleared. -/
def fill_mi_header (row : List Cell) (ctl : List Bool) : List Cell × List Bool :=
  match row with
  | [] => ([], [])
  | c0 :: cs =>
    let r := fillMiAux c0 cs ctl.tail
    (c0 :: r.1, ctl.headD true :: r.2)

/-- The `merge` header rows starting at `spanStart`, forward-filled in order
with the `control_row` threaded from one row to the next (started as
`[True] * w`, the frame width). -/
def filledHeaderRows (s : Grid) (spanStart merge w : ℕ) : List (List Cell) :=
  (((List.range merge).map (fun k => s.getD (spanStart + k) [])).foldl
    (fun acc row =>
      let r := fill_mi_header row acc.2
      (acc.1 ++ [r.1], r.2))
    (([], List.replicate w true) : List (List Cell) × List Bool)).1

/-- The name pandas assigns to a single-header-row column: an `Unnamed: c`
placeholder for a (still) blank cell, otherwise the cell's string. -/
def pandasName : Cell → ℕ → String
  | Cell.empty, c => "Unnamed: " ++ toString c
  | cell, _ => pyStr cell

/-- Resolved (pre-cleanup) names of the header positions for a header span
ending at 0-based row `header_index` with `merge` rows, over a frame of
width `w`: the span rows are forward-filled by `fill_mi_header`; a single
header row then yields the pandas-assigned names, and a multi-row span the
`" - "` join of each position's surviving parts. -/
def headerNames (s : Grid) (header_index merge w : ℕ) : List String :=
  let rows := filledHeaderRows s (header_index + 1 - merge) merge w
  if merge = 1 then
    (List.range w).map (fun c => pandasName ((rows.getD 0 []).getD c Cell.empty) c)
  else
    (List.range w).map (fun c =>
      " - ".intercalate ((rows.map (fun r => r.getD c Cell.empty)).filterMap mergedPart))

/-- The cleaned table handed to record formatting: resolved column names
and the data rows (cells aligned with `names` by position). -/
structure DF where
  names : List String
  rows : List (List Cell)
deriving DecidableEq, Repr

/-- Column `j` of a row-major cell table. -/
def colAt (rows : List (List Cell)) (j : ℕ) : List Cell :=
  rows.map (fun r => r.getD j Cell.empty)

/-- Cell admissible in a `float64` column (pandas reads every Excel numeric
as a float; blanks are `NaN`). -/
def isFloatCell : Cell → Bool
  | .empty => true
  | .num _ => true
  | _ => false

/-- Cell that does not block the `astype('Int64')` cast: a present numeric
value must be integral, blanks cast to `NA`. -/
def wholeCell : Cell → Bool
  | .num q => q.den = 1
  | _ => true

/-- The column is selected by `select_dtypes(include=['float64'])` and its
`astype('Int64')` cast succeeds (a non-integral value makes the cast raise,
which the source swallows). -/
def shouldCoerce (col : List Cell) : Bool :=
  col.all isFloatCell && col.all wholeCell

/-- Whole-number cast of one cell. -/
def castIntCell : Cell → Cell
  | .num q => .int q.num
  | c => c

/-- The per-column whole-number coercion: on success the column becomes
nullable-integer, otherwise it is left unchanged. -/
def coerceColumn (col : List Cell) : List Cell :=
  if shouldCoerce col then col.map castIntCell else col

/-- The coercion loop over a `k`-column table (row-major form): each column
whose cast succeeds is rewritten cell-by-cell. -/
def applyCoerce (rows : List (List Cell)) (k : ℕ) : List (List Cell) :=
  let flags := (List.range k).map (fun j => shouldCoerce (colAt rows j))
  rows.map (fun r => r.mapIdx (fun j c => if flags.getD j false then castIntCell c else c))

/-- Model of `df.dropna(axis=0, how='all')`: drop data rows that are entirely null
across the kept columns. -/
def dropNullRows (rows : List (List Cell)) : List (List Cell) :=
  rows.filter (fun r => !r.all (fun c => c = Cell.empty))

/-- Metadata rendering of one cell (`row.dropna().astype(str)`). -/
def cellMetaStr (c : Cell) : Option String :=
  match c with
  | .empty => none
  | c => some (pyStr c)

/-- One metadata row: space-join of its non-null cells; an empty join is
dropped, otherwise newlines are replaced by spaces and the row trimmed. -/
def metaRow (r : List Cell) : Option String :=
  let j := " ".intercalate (r.filterMap cellMetaStr)
  if j = "" then none else some (pytrim (replaceNl j))

/-- The `metadata_string`: the `" | "` join of the surviving per-row strings. -/
def metaString (pre : List (List Cell)) : String :=
  " | ".intercalate (pre.filterMap metaRow)

/-- Remove the cells at positions `D` from a row (starting at position
`i`); models `df_pre_header.iloc[:, cols_to_keep_indices]`. -/
def dropPositions (D : List ℕ) : ℕ → List Cell → List Cell
  | _, [] => []
  | i, c :: cs =>
    if i ∈ D then dropPositions D (i + 1) cs else c :: dropPositions D (i + 1) cs

/-- Column positions that are entirely null across the header+metadata
block (the `df_header_block.isna().all()` scan). -/
def emptyBlockCols (block : Grid) (w : ℕ) : List ℕ :=
  (List.range w).filter (fun c => block.all (fun r => r.getD c Cell.empty = Cell.empty))

/-- The cleaning body of `_load_and_clean_sheet` in row mode, after a
successful load: header split and merge, metadata-block empty-column
pruning, `Unnamed:` column cleanup, whole-number coercion, row exclusion,
null-row pruning, and metadata extraction. -/
def cleanRowCore (g : Grid) (cfg : SheetCfg) : DF × String :=
  let s := readGrid g
  let hIdx := cfg.header_row - 1
  let w := widthG s
  let spanStart := hIdx + 1 - cfg.merge_rows
  let names0 := headerNames s hIdx cfg.merge_rows w
  let dataRows := (s.drop (hIdx + 1)).map (padTo w)
  let preRows := (s.take spanStart).map (padTo w)
  let metaPresent := cfg.header_row > cfg.merge_rows
  let block := (s.take cfg.header_row).map (padTo w)
  let prunedPre := preRows.map (dropPositions (emptyBlockCols block w) 0)
  let keep := (List.range w).filter (fun c => !strStartsWith (names0.getD c "") "Unnamed:")
  let names1 := (names0.filter (fun n => !strStartsWith n "Unnamed:")).map pytrim
  let rows1 := dataRows.map (fun r => keep.map (fun c => r.getD c Cell.empty))
  let rows2 := applyCoerce rows1 keep.length
  let exc := applyExclusion cfg.excluded_rows cfg.header_row rows2
  let rows3 := dropNullRows exc.1
  let meta := if metaPresent ∧ ¬preRows.isEmpty then metaString prunedPre else ""
  (⟨names1, rows3⟩, meta)

/-- Model of `_load_and_clean_sheet` in row mode.  The load fails (exception caught,
`(None, None)` returned) exactly when the requested header rows lie beyond
the frame the reader delivers. -/
def load_and_clean_sheet_row (g : Grid) (cfg : SheetCfg) : Option (DF × String) :=
  if cfg.header_row - 1 < (readGrid g).length then some (cleanRowCore g cfg) else none

/-! ## Record formatting and the per-sheet writer -/

/-- A serialized record value. -/
inductive JValue where
  | null : JValue
  | jint (n : ℤ) : JValue
  | jnum (q : ℚ) : JValue
  | jstr (s : String) : JValue
  | jtime (t : ℕ) : JValue
deriving DecidableEq, Repr

/-- Record value of a cell (`_format_records`): nulls stay null, temporal
values are ISO-rendered (payload kept abstract), others pass through. -/
def jval : Cell → JValue
  | .empty => .null
  | .num q => .jnum q
  | .int n => .jint n
  | .temporal t => .jtime t
  | .text s => .jstr s

abbrev Record := List (String × JValue)

/-- Model of `_format_records`: one flat mapping per data row, with `ExtraInfo`
appended when the metadata string is non-empty. -/
def formatRecords (df : DF) (meta : String) : List Record :=
  df.rows.map (fun r =>
    (df.names.zip (r.map jval)) ++
      (if meta = "" then [] else [("ExtraInfo", JValue.jstr meta)]))

/-! ## Column-mode extraction (`_load_and_clean_sheet`, `header_mode = "column"`) -/

/-- Effect of `process_single_sheet` on the destination file. -/
inductive FileAction where
  | untouched : FileAction
  | written (lines : List Record) : FileAction
deriving DecidableEq, Repr

/-- Model of `process_single_sheet`: returns the reported record count and the
destination-file effect.  The output file is opened for (truncating)
writing only on the branch that has a non-empty cleaned table. -/
def process_single_sheet (g : Grid) (cfg : SheetCfg) : ℕ × FileAction :=
  match load_and_clean_sheet_row g cfg with
  | none => (0, .untouched)
  | some (df, meta) =>
    if df.rows.isEmpty then (0, .untouched)
    else
      let recs := formatRecords df meta
      (recs.length, .written recs)

/-! ## Concrete grids used as claim inputs -/

/-- A sheet with a title row, a blank separator row, then a numeric row. -/
def C1cexGrid : Grid := [[.text "Header"], [], [.num 1]]

/-- A sheet with two contiguous text rows followed by a numeric row. -/
def C1witGrid : Grid := [[.text "A"], [.text "B"], [.num 1]]

/-- A single-column all-text sheet whose first row is blank. -/
def C8cexGrid : Grid := [[.empty], [.text "a"]]

/-- An all-text sheet without blank rows. -/
def C8witGrid : Grid := [[.text "x"], [.text "y", .text "z"]]

/-- A two-column sheet with a title row, a fully blank row, and a numeric
row directly below the blank row. -/
def C5cexGrid : Grid := [[.text "T", .empty], [.empty, .empty], [.num 1, .num 2]]

/-- An excluded-rows config with one integer, one well-formed range and one
malformed range. -/
def C9witCfg : List ExclEntry := [.int 3, .str "5-7", .str "x-y"]

/-- The end-to-end scenario sheet of the spec: a title row, a header row, a
data row, a fully blank row, and a final data row. -/
def C3grid : Grid :=
  [[.text "Report 2024-01-01", .empty, .empty],
   [.text "Region", .text "Sales", .text "Qty"],
   [.text "North", .num 100, .num 5],
   [.empty, .empty, .empty],
   [.text "South", .num 200, .num 7]]

/-- A one-row sheet, used with an out-of-range header request. -/
def C10witGrid : Grid := [[.text "only"]]

end KBL

namespace KBL

/-! ## General lemmas -/

theorem upFrom_le (g : Grid) (n : ℕ) : upFrom g n ≤ n := by
  unfold upFrom
  calc ((g.take n).reverse.takeWhile (fun r => decide (0 < rowCount r))).length
      ≤ (g.take n).reverse.length := (List.takeWhile_prefix _).sublist.length_le
    _ ≤ n := by simp [List.length_take]

/-! ## Read-layer lemmas (trimming, padding and `readGrid`) -/

theorem argmax_foldl (l : List (List Cell)) :
    ∀ (k bi : ℕ) (bv : ℤ),
      (((l.enumFrom k).foldl
          (fun best p =>
            if (rowCount p.2 : ℤ) > best.2 then (p.1, (rowCount p.2 : ℤ)) else best)
          (bi, bv) = (bi, bv) ∧
        ∀ j, j < l.length → (rowCount (l.getD j []) : ℤ) ≤ bv) ∨
      (∃ j, j < l.length ∧
        (l.enumFrom k).foldl
          (fun best p =>
            if (rowCount p.2 : ℤ) > best.2 then (p.1, (rowCount p.2 : ℤ)) else best)
          (bi, bv) = (k + j, (rowCount (l.getD j []) : ℤ)) ∧
        bv < (rowCount (l.getD j []) : ℤ) ∧
        (∀ j', j' < l.length → rowCount (l.getD j' []) ≤ rowCount (l.getD j [])) ∧
        (∀ j', j' < j → rowCount (l.getD j' []) < rowCount (l.getD j [])))) := by
  induction l with
  | nil =>
    intro k bi bv
    left
    constructor
    · rfl
    · intro j hj; simp at hj
  | cons r rs ih =>
    intro k bi bv
    have hE : List.enumFrom k (r :: rs) = (k, r) :: List.enumFrom (k + 1) rs := rfl
    rw [hE, List.foldl_cons]
    by_cases hc : (rowCount r : ℤ) > bv
    · simp only [if_pos hc]
      rcases ih (k + 1) k (rowCount r : ℤ) with ⟨heq, hall⟩ | ⟨j, hj, heq, hgt, hall, hfst⟩
      · right
        refine ⟨0, by simp, ?_, ?_, ?_, ?_⟩
        · rw [heq]; simp
        · simpa using hc
        · intro j' hj'
          cases j' with
          | zero => simp
          | succ j'' =>
            simp only [List.getD_cons_succ, List.getD_cons_zero]
            have := hall j'' (by simpa using hj')
            omega
        · intro j' hj'; omega
      · right
        refine ⟨j + 1, by simpa using hj, ?_, ?_, ?_, ?_⟩
        · rw [heq]; simp only [List.getD_cons_succ]; congr 1; omega
        · simp only [List.getD_cons_succ]; omega
        · intro j' hj'
          cases j' with
          | zero =>
            simp only [List.getD_cons_succ, List.getD_cons_zero]
            omega
          | succ j'' =>
            simp only [List.getD_cons_succ]
            exact hall j'' (by simpa using hj')
        · intro j' hj'
          cases j' with
          | zero =>
            simp only [List.getD_cons_succ, List.getD_cons_zero]
            omega
          | succ j'' =>
            simp only [List.getD_cons_succ]
            exact hfst j'' (by omega)
    · simp only [if_neg hc]
      rcases ih (k + 1) bi bv with ⟨heq, hall⟩ | ⟨j, hj, heq, hgt, hall, hfst⟩
      · left
        refine ⟨heq, ?_⟩
        intro j hjlen
        cases j with
        | zero => simp only [List.getD_cons_zero]; omega
        | succ j'' =>
          simp only [List.getD_cons_succ]
          exact hall j'' (by simpa using hjlen)
      · right
        refine ⟨j + 1, by simpa using hj, ?_, ?_, ?_, ?_⟩
        · rw [heq]; simp only [List.getD_cons_succ]; congr 1; omega
        · simp only [List.getD_cons_succ]; omega
        · intro j' hj'
          cases j' with
          | zero =>
            simp only [List.getD_cons_succ, List.getD_cons_zero]
            omega
          | succ j'' =>
            simp only [List.getD_cons_succ]
            exact hall j'' (by simpa using hj')
        · intro j' hj'
          cases j' with
          | zero =>
            simp only [List.getD_cons_succ, List.getD_cons_zero]
            omega
          | succ j'' =>
            simp only [List.getD_cons_succ]
            exact hfst j'' (by omega)

theorem argmaxCount_spec (g : Grid) (hne : g ≠ []) :
    argmaxCount g < g.length ∧
    (∀ j, j < g.length → rowCount (g.getD j []) ≤ rowCount (g.getD (argmaxCount g) [])) ∧
    (∀ j, j < argmaxCount g → rowCount (g.getD j []) < rowCount (g.getD (argmaxCount g) [])) := by
  have h := argmax_foldl g 0 0 (-1)
  rcases h with ⟨_, hall⟩ | ⟨j, hj, heq, _, hall, hfst⟩
  · exfalso
    have hlen : 0 < g.length := List.length_pos.mpr hne
    have := hall 0 hlen
    omega
  · have harg : argmaxCount g = j := by
      unfold argmaxCount List.enum
      rw [heq]
      simp
    exact ⟨by omega, by rwa [harg], by rwa [harg]⟩

/-! ## Claim C1 — header detection, data-row strategy -/

/-- C1 counterexample.  On the single-column sheet
`[["Header"], [blank row], [1]]` the first data-looking row sits at raw
0-based index 2 with a blank row directly above it, so the claim (stated
over the raw grid) demands the result `(2, 0)`: header ends at row 2 and the
upward merge scan stops immediately at the blank row.  Because the frame is
one column wide, the read layer removes the blank row before the detector
runs, and `detect_header_and_merge_count` actually returns `(1, 1)`. -/
theorem C1_counterexample :
    (C1cexGrid.take 20).findIdx? isDataRow = some 2 ∧
    upFrom (C1cexGrid.take 20) 2 = 0 ∧
    detect_header_and_merge_count C1cexGrid = (1, 1) ∧
    detect_header_and_merge_count C1cexGrid ≠ (2, upFrom (C1cexGrid.take 20) 2) := by
  decide

/-- C1 (amended): the data-row strategy operates on the scan window as the
Excel read layer delivers it (trailing blank rows trimmed, rows padded to
the window's width, and — only when that width is at most one column —
blank rows removed; blank rows of wider sheets survive as all-empty rows).
Whenever the first row of that frame whose non-empty-cell ratio of
numeric-or-temporal cells exceeds 0.4 sits at 0-based index `i > 0`,
`detect` returns `header_end_row = i` (1-based) and `merge_row_count` equal
to the number of contiguous rows with at least one non-empty cell counted
scanning upward from frame index `i - 1`, stopping at (and excluding) the
first fully empty row. -/
theorem C1_data_row_strategy (g : Grid) (i : ℕ)
    (hfind : (readGrid (g.take 20)).findIdx? isDataRow = some i) (hi : 0 < i) :
    detect_header_and_merge_count g = (i, upFrom (readGrid (g.take 20)) i) := by
  have hne : (readGrid (g.take 20)).isEmpty = false := by
    cases h : readGrid (g.take 20) with
    | nil => rw [h] at hfind; simp [List.findIdx?] at hfind
    | cons a l => rfl
  simp only [detect_header_and_merge_count, hne, Bool.false_eq_true, if_false, hfind]
  simp [hi]

/-- Witness for `C1_data_row_strategy` at a concrete sheet. -/
theorem C1_data_row_strategy_witness :
    (readGrid (C1witGrid.take 20)).findIdx? isDataRow = some 2 ∧ 0 < 2 ∧
    detect_header_and_merge_count C1witGrid =
      (2, upFrom (readGrid (C1witGrid.take 20)) 2) :=
  ⟨by decide, by decide, C1_data_row_strategy C1witGrid 2 (by decide) (by decide)⟩

/-! ## Claim C8 — header detection, max-non-null fallback -/

/-- C8 counterexample.  On the single-column all-text sheet
`[[blank], ["a"]]` no row meets the data-row criterion; the claim (read over
the raw scan window) picks raw index 1 as the max-non-null row, giving
header end row 2, and its upward merge scan stops at the blank row directly
above, giving merge count 1.  Because the frame is one column wide, the read
layer removes the blank row before the detector runs, and
`detect_header_and_merge_count` actually returns `(1, 1)`. -/
theorem C8_counterexample :
    (C8cexGrid.take 20).findIdx? isDataRow = none ∧
    argmaxCount (C8cexGrid.take 20) = 1 ∧
    1 + upFrom (C8cexGrid.take 20) (argmaxCount (C8cexGrid.take 20)) = 1 ∧
    detect_header_and_merge_count C8cexGrid = (1, 1) ∧
    detect_header_and_merge_count C8cexGrid ≠
      (argmaxCount (C8cexGrid.take 20) + 1,
        1 + upFrom (C8cexGrid.take 20) (argmaxCount (C8cexGrid.take 20))) := by
  decide

/-- C8 (amended): the max-non-null fallback operates on the scan window as
the Excel read layer delivers it (trailing blank rows trimmed, rows padded
to the window's width, and blank rows removed only in width-one frames).
When no frame row meets the data-row ratio criterion, `detect` picks the
frame row with the greatest count of non-empty cells — the first occurrence
winning on ties because the comparison is strict — as the header end, and
the merge count starts at 1 and grows by scanning upward through contiguous
non-empty rows, stopping at the first empty row. -/
theorem C8_max_non_null_fallback (g : Grid)
    (hnone : (readGrid (g.take 20)).findIdx? isDataRow = none)
    (hne : (readGrid (g.take 20)).isEmpty = false) :
    detect_header_and_merge_count g =
      (argmaxCount (readGrid (g.take 20)) + 1,
        1 + upFrom (readGrid (g.take 20)) (argmaxCount (readGrid (g.take 20)))) ∧
    (∀ j, j < (readGrid (g.take 20)).length →
      rowCount ((readGrid (g.take 20)).getD j []) ≤
        rowCount ((readGrid (g.take 20)).getD (argmaxCount (readGrid (g.take 20))) [])) ∧
    (∀ j, j < argmaxCount (readGrid (g.take 20)) →
      rowCount ((readGrid (g.take 20)).getD j []) <
        rowCount ((readGrid (g.take 20)).getD (argmaxCount (readGrid (g.take 20))) [])) := by
  have hnil : readGrid (g.take 20) ≠ [] := by
    intro h
    rw [h] at hne
    simp at hne
  have hspec := argmaxCount_spec (readGrid (g.take 20)) hnil
  refine ⟨?_, hspec.2.1, hspec.2.2⟩
  simp only [detect_header_and_merge_count, hne, Bool.false_eq_true, if_false, hnone]

/-- Witness for `C8_max_non_null_fallback` at a concrete sheet. -/
theorem C8_max_non_null_fallback_witness :
    (readGrid (C8witGrid.take 20)).findIdx? isDataRow = none ∧
    (readGrid (C8witGrid.take 20)).isEmpty = false ∧
    detect_header_and_merge_count C8witGrid =
      (argmaxCount (readGrid (C8witGrid.take 20)) + 1,
        1 + upFrom (readGrid (C8witGrid.take 20)) (argmaxCount (readGrid (C8witGrid.take 20)))) :=
  ⟨by decide, by decide,
    (C8_max_non_null_fallback C8witGrid (by decide) (by decide)).1⟩

/-! ## Claim C5 — the `1 ≤ merge_rows ≤ header_row` invariant -/

/-- C5 counterexample.  On the two-column sheet
`[["T", blank], [blank row], [1, 2]]` the blank row survives the read layer
(the frame is two columns wide), the first data row sits at frame index 2,
and the upward merge scan stops immediately at the blank row above it:
`detect_header_and_merge_count` returns `(2, 0)`, violating the claimed
invariant `1 ≤ merge_rows`. -/
theorem C5_counterexample :
    detect_header_and_merge_count C5cexGrid = (2, 0) ∧
    ¬(1 ≤ (detect_header_and_merge_count C5cexGrid).2) := by
  decide

/-- C5 (amended): every `SheetConfig` produced by the config-building phase
satisfies `merge_rows ≤ header_row` with `header_row ≥ 1`.  Caller-supplied
values of at least 1 additionally keep `1 ≤ merge_rows` (a merge count
exceeding the header end row is clamped down to it), but automatic
detection can return `merge_rows = 0`, namely when a fully blank row lies
directly above the detected first data row. -/
theorem C5_sheet_config_invariant :
    (∀ g : Grid, 1 ≤ (detect_header_and_merge_count g).1 ∧
      (detect_header_and_merge_count g).2 ≤ (detect_header_and_merge_count g).1) ∧
    (∀ h m : ℕ, 1 ≤ h → 1 ≤ m →
      1 ≤ normalize_merge h m ∧ normalize_merge h m ≤ h) := by
  constructor
  · intro g
    by_cases hne : (readGrid (g.take 20)).isEmpty = true
    · simp [detect_header_and_merge_count, hne]
    · have hne' : (readGrid (g.take 20)).isEmpty = false := by
        simpa using hne
      cases hfind : (readGrid (g.take 20)).findIdx? isDataRow with
      | none =>
        simp only [detect_header_and_merge_count, hne', Bool.false_eq_true, if_false, hfind]
        refine ⟨by omega, ?_⟩
        have := upFrom_le (readGrid (g.take 20)) (argmaxCount (readGrid (g.take 20)))
        omega
      | some i =>
        by_cases hi : 0 < i
        · simp only [detect_header_and_merge_count, hne', Bool.false_eq_true, if_false,
            hfind, hi, if_pos]
          have h1 := upFrom_le (readGrid (g.take 20)) i
          exact ⟨by omega, by omega⟩
        · simp [detect_header_and_merge_count, hne', hfind, hi]
  · intro h m hh hm
    unfold normalize_merge
    by_cases hc : m > h
    · simp [hc]; omega
    · simp [hc]; omega

/-- Witness for `C5_sheet_config_invariant` at concrete caller inputs. -/
theorem C5_sheet_config_invariant_witness :
    1 ≤ normalize_merge 3 5 ∧ normalize_merge 3 5 ≤ 3 :=
  C5_sheet_config_invariant.2 3 5 (by decide) (by decide)

/-! ## Claim C9 — extraction-time excluded-rows parsing -/

theorem mem_parse_foldl (cfg : List ExclEntry) :
    ∀ (acc : Finset ℤ) (k : ℤ),
      (k ∈ cfg.foldl (fun acc e => acc ∪ entryRows e) acc ↔
        k ∈ acc ∨ ∃ e ∈ cfg, k ∈ entryRows e) := by
  induction cfg with
  | nil => intro acc k; simp
  | cons e es ih =>
    intro acc k
    rw [List.foldl_cons, ih]
    simp only [Finset.mem_union, List.mem_cons]
    constructor
    · rintro (⟨hk | hk⟩ | ⟨e', he', hk⟩)
      · exact Or.inl hk
      · exact Or.inr ⟨e, Or.inl rfl, hk⟩
      · exact Or.inr ⟨e', Or.inr he', hk⟩
    · rintro (hk | ⟨e', (rfl | he'), hk⟩)
      · exact Or.inl (Or.inl hk)
      · exact Or.inl (Or.inr hk)
      · exact Or.inr ⟨e', he', hk⟩

/-- C9: extraction-time excluded-rows parsing never fails the sheet.  Every
persisted integer entry lands in the exclusion set; every well-formed
`"a-b"` range with `a ≤ b` contributes exactly its inclusive range; nothing
else enters the set; and a malformed range token (a string containing `'-'`
that does not split into two integers) contributes nothing and is counted
by a warning. -/
theorem C9_exclusion_parse_total (cfg : List ExclEntry) :
    (∀ n : ℤ, ExclEntry.int n ∈ cfg → n ∈ parse_excluded_rows cfg) ∧
    (∀ (s : String) (a b k : ℤ), ExclEntry.str s ∈ cfg → strContainsDash s = true →
      parseRange s = some (a, b) → a ≤ b → a ≤ k → k ≤ b →
      k ∈ parse_excluded_rows cfg) ∧
    (∀ k : ℤ, k ∈ parse_excluded_rows cfg →
      (ExclEntry.int k ∈ cfg) ∨
      ∃ (s : String) (a b : ℤ), ExclEntry.str s ∈ cfg ∧ strContainsDash s = true ∧
        parseRange s = some (a, b) ∧ a ≤ b ∧ a ≤ k ∧ k ≤ b) ∧
    (∀ s : String, ExclEntry.str s ∈ cfg → entryWarn (ExclEntry.str s) = true →
      1 ≤ parse_warnings cfg ∧ entryRows (ExclEntry.str s) = ∅) := by
  refine ⟨?_, ?_, ?_, ?_⟩
  · intro n hn
    rw [parse_excluded_rows, mem_parse_foldl]
    exact Or.inr ⟨ExclEntry.int n, hn, by simp [entryRows]⟩
  · intro s a b k hs hdash hparse hab hak hkb
    rw [parse_excluded_rows, mem_parse_foldl]
    refine Or.inr ⟨ExclEntry.str s, hs, ?_⟩
    simp only [entryRows, hdash, if_pos, hparse]
    rw [if_pos hab]
    exact Finset.mem_Icc.mpr ⟨hak, hkb⟩
  · intro k hk
    rw [parse_excluded_rows, mem_parse_foldl] at hk
    rcases hk with hk | ⟨e, he, hk⟩
    · simp at hk
    · cases e with
      | int n =>
        simp only [entryRows, Finset.mem_singleton] at hk
        subst hk
        exact Or.inl he
      | str s =>
        simp only [entryRows] at hk
        by_cases hdash : strContainsDash s = true
        · rw [if_pos hdash] at hk
          cases hparse : parseRange s with
          | none => rw [hparse] at hk; simp at hk
          | some p =>
            obtain ⟨a, b⟩ := p
            rw [hparse] at hk
            have hkk : k ∈ (if a ≤ b then Finset.Icc a b else (∅ : Finset ℤ)) := hk
            by_cases hab : a ≤ b
            · rw [if_pos hab] at hkk
              have := Finset.mem_Icc.mp hkk
              exact Or.inr ⟨s, a, b, he, hdash, hparse, hab, this.1, this.2⟩
            · rw [if_neg hab] at hkk; simp at hkk
        · rw [if_neg hdash] at hk; simp at hk
  · intro s hs hw
    constructor
    · have : ExclEntry.str s ∈ cfg.filter entryWarn := List.mem_filter.mpr ⟨hs, hw⟩
      have hne := List.ne_nil_of_mem this
      unfold parse_warnings
      have := List.length_pos.mpr hne
      omega
    · simp only [entryWarn, Bool.and_eq_true, Option.isNone_iff_eq_none] at hw
      simp [entryRows, hw.1, hw.2]

/-- Witness for `C9_exclusion_parse_total` at a concrete config. -/
theorem C9_exclusion_parse_total_witness :
    3 ∈ parse_excluded_rows C9witCfg ∧
    (6 : ℤ) ∈ parse_excluded_rows C9witCfg ∧
    1 ≤ parse_warnings C9witCfg :=
  ⟨(C9_exclusion_parse_total C9witCfg).1 3 (by decide),
   (C9_exclusion_parse_total C9witCfg).2.1 "5-7" 5 7 6 (by decide) (by decide)
     (by decide) (by decide) (by decide) (by decide),
   ((C9_exclusion_parse_total C9witCfg).2.2.2 "x-y" (by decide) (by decide)).1⟩

/-! ## Claim C2 — row exclusion during extraction -/

theorem zip_range_filter_fst_length {α : Type} (l : List α) (f : ℕ → Bool) :
    ((l.enum.filter (fun p => f p.1)).map (·.2)).length =
      ((List.range l.length).filter f).length := by
  rw [List.length_map, List.enum_eq_zip_range]
  have hmap : (((List.range l.length).zip l).filter (fun p => f p.1)).map Prod.fst =
      (((List.range l.length).zip l).map Prod.fst).filter f := by
    rw [List.filter_map]
    rfl
  have hfst : ((List.range l.length).zip l).map Prod.fst = List.range l.length :=
    List.map_fst_zip _ _ (by simp)
  calc (((List.range l.length).zip l).filter (fun p => f p.1)).length
      = ((((List.range l.length).zip l).filter (fun p => f p.1)).map Prod.fst).length := by
        rw [List.length_map]
    _ = ((List.range l.length).filter f).length := by rw [hmap, hfst]

/-- C2: the exclusion step expands the persisted entries into original row
numbers, keeps exactly the data rows whose original row number
`index + header_row + 1` is outside the expanded set (mapped indices inside
the current bounds are dropped, out-of-bounds ones are silently ignored),
and reports the number of in-bounds mapped indices as the removed count. -/
theorem C2_row_exclusion {α : Type} (excl : List ExclEntry) (h : ℕ) (rows : List α) :
    (applyExclusion excl h rows).1 =
      (rows.enum.filter
        (fun p => !(((p.1 : ℤ) + h + 1) ∈ parse_excluded_rows excl : Bool))).map (·.2) ∧
    (applyExclusion excl h rows).2 =
      ((List.range rows.length).filter
        (fun i : ℕ => (((i : ℤ) + h + 1) ∈ parse_excluded_rows excl : Bool))).length := by
  have hfst : ∀ p ∈ rows.enum, p.1 < rows.length := by
    intro p hp
    rw [List.enum_eq_zip_range] at hp
    have := (List.of_mem_zip hp).1
    simpa using this
  by_cases hempty : excl.isEmpty
  · have hnil : excl = [] := by cases excl <;> simp_all
    subst hnil
    constructor
    · simp only [applyExclusion, List.isEmpty_nil, if_true]
      have : ∀ p ∈ rows.enum,
          (!(((p.1 : ℤ) + h + 1) ∈ parse_excluded_rows [] : Bool)) = true := by
        intro p _
        simp [parse_excluded_rows]
      rw [List.filter_eq_self.mpr this, List.enum_eq_zip_range,
        List.map_snd_zip _ _ (by simp)]
    · simp only [applyExclusion, List.isEmpty_nil, if_true]
      have hnilf : (List.range rows.length).filter
          (fun i : ℕ => (((i : ℤ) + h + 1) ∈ parse_excluded_rows [] : Bool)) = [] := by
        apply List.filter_eq_nil_iff.mpr
        intro a _
        simp [parse_excluded_rows]
      rw [hnilf]
      rfl
  · have hmem : ∀ p ∈ rows.enum,
        (!((p.1 : ℤ) ∈
          ((parse_excluded_rows excl).image (fun o => o - ((h : ℤ) + 1))).filter
            (fun i => 0 ≤ i ∧ i < (rows.length : ℤ)) : Bool)) =
        (!(((p.1 : ℤ) + h + 1) ∈ parse_excluded_rows excl : Bool)) := by
      intro p hp
      have hlt := hfst p hp
      congr 1
      rw [decide_eq_decide]
      rw [Finset.mem_filter, Finset.mem_image]
      constructor
      · rintro ⟨⟨o, ho, hoe⟩, _, _⟩
        have : o = (p.1 : ℤ) + h + 1 := by omega
        rwa [this] at ho
      · intro hin
        exact ⟨⟨(p.1 : ℤ) + h + 1, hin, by omega⟩, by omega, by exact_mod_cast hlt⟩
    have h1 : (applyExclusion excl h rows).1 =
        (rows.enum.filter
          (fun p => !(((p.1 : ℤ) + h + 1) ∈ parse_excluded_rows excl : Bool))).map (·.2) := by
      simp only [applyExclusion, hempty]
      rw [if_neg (by simp_all)]
      exact congrArg _ (List.filter_congr hmem)
    refine ⟨h1, ?_⟩
    have h2 : (applyExclusion excl h rows).2 =
        rows.length - (applyExclusion excl h rows).1.length := by
      simp only [applyExclusion, hempty]
      rw [if_neg (by simp_all)]
    rw [h2, h1, zip_range_filter_fst_length rows
      (fun i : ℕ => !(((i : ℤ) + h + 1) ∈ parse_excluded_rows excl : Bool))]
    have hsplit := @List.length_eq_length_filter_add ℕ (List.range rows.length)
      (fun i : ℕ => (((i : ℤ) + h + 1) ∈ parse_excluded_rows excl : Bool))
    simp only [List.length_range] at hsplit
    omega

/-! ## Claim C7 — whole-number coercion -/

theorem getD_mapIdx {α β : Type} (l : List α) (F : ℕ → α → β) (j : ℕ) (dA : α) (dB : β)
    (hF : F j dA = dB) : (l.mapIdx F).getD j dB = F j (l.getD j dA) := by
  rw [List.mapIdx_eq_enum_map, List.getD_eq_getElem?_getD, List.getD_eq_getElem?_getD,
    List.getElem?_map, List.getElem?_enum]
  cases hj : l[j]? with
  | none => simp [hF]
  | some a => simp

theorem colAt_applyCoerce (rows : List (List Cell)) (k j : ℕ) (hj : j < k) :
    colAt (applyCoerce rows k) j = coerceColumn (colAt rows j) := by
  have hflag : (((List.range k).map (fun i => shouldCoerce (colAt rows i))).getD j false)
      = shouldCoerce (colAt rows j) := by
    rw [List.getD_eq_getElem?_getD, List.getElem?_map, List.getElem?_range hj]
    rfl
  have hF0 : (fun c => if (((List.range k).map
        (fun i => shouldCoerce (colAt rows i))).getD j false)
      then castIntCell c else c) Cell.empty = Cell.empty := by
    by_cases hb : (((List.range k).map (fun i => shouldCoerce (colAt rows i))).getD j false)
        = true <;> simp [hb, castIntCell]
  have hstep : ∀ r : List Cell,
      ((r.mapIdx (fun i c => if (((List.range k).map
          (fun i' => shouldCoerce (colAt rows i'))).getD i false)
        then castIntCell c else c)).getD j Cell.empty)
      = (if shouldCoerce (colAt rows j) then castIntCell (r.getD j Cell.empty)
         else r.getD j Cell.empty) := by
    intro r
    rw [getD_mapIdx _ _ _ Cell.empty Cell.empty hF0, hflag]
  show ((rows.map _).map _ : List Cell) = _
  rw [List.map_map]
  by_cases hc : shouldCoerce (colAt rows j) = true
  · refine (List.map_congr_left (fun r _ => (hstep r).trans (if_pos hc))).trans ?_
    unfold coerceColumn
    rw [if_pos hc]
    unfold colAt
    rw [List.map_map]
    rfl
  · have hc' : shouldCoerce (colAt rows j) = false := by simpa using hc
    refine (List.map_congr_left
      (fun r _ => (hstep r).trans (if_neg (by simp [hc'])))).trans ?_
    unfold coerceColumn
    rw [if_neg (by simp [hc'])]
    rfl

/-- C7: in the coercion step, every column whose present values are all
real numbers and all whole-number floats is cast to nullable-integer
representation; a column containing any fractional value (for which the
cast raises) is left unchanged as float.  The first conjunct ties the
per-column function to the pipeline's row-major coercion pass. -/
theorem C7_whole_number_coercion :
    (∀ (rows : List (List Cell)) (k j : ℕ), j < k →
      colAt (applyCoerce rows k) j = coerceColumn (colAt rows j)) ∧
    (∀ col : List Cell, (∀ c ∈ col, isFloatCell c = true) →
      (∀ c ∈ col, wholeCell c = true) →
      coerceColumn col = col.map castIntCell) ∧
    (∀ (col : List Cell) (q : ℚ), Cell.num q ∈ col → q.den ≠ 1 →
      coerceColumn col = col) := by
  refine ⟨colAt_applyCoerce, ?_, ?_⟩
  · intro col hfloat hwhole
    unfold coerceColumn shouldCoerce
    rw [if_pos]
    rw [Bool.and_eq_true, List.all_eq_true, List.all_eq_true]
    exact ⟨hfloat, hwhole⟩
  · intro col q hq hden
    unfold coerceColumn shouldCoerce
    rw [if_neg]
    rw [Bool.and_eq_true, List.all_eq_true, List.all_eq_true]
    rintro ⟨-, hwhole⟩
    have := hwhole (Cell.num q) hq
    simp [wholeCell, hden] at this

/-- Witness for `C7_whole_number_coercion` at concrete columns. -/
theorem C7_whole_number_coercion_witness :
    colAt (applyCoerce [[Cell.num 2, Cell.num (mkRat 5 2)],
        [Cell.num 3, Cell.num (mkRat 7 2)]] 2) 0 =
      coerceColumn [Cell.num 2, Cell.num 3] ∧
    coerceColumn [Cell.num 2, Cell.num 3, Cell.num 5] =
      [Cell.int 2, Cell.int 3, Cell.int 5] ∧
    coerceColumn [Cell.num (mkRat 5 2), Cell.num 3] =
      [Cell.num (mkRat 5 2), Cell.num 3] :=
  ⟨C7_whole_number_coercion.1 [[Cell.num 2, Cell.num (mkRat 5 2)],
      [Cell.num 3, Cell.num (mkRat 7 2)]] 2 0 (by decide),
   (C7_whole_number_coercion.2.1 [Cell.num 2, Cell.num 3, Cell.num 5]
      (by decide) (by decide)).trans (by decide),
   C7_whole_number_coercion.2.2 [Cell.num (mkRat 5 2), Cell.num 3] (mkRat 5 2)
      (by decide) (by decide)⟩

/-! ## Claim C6 — resolved columns after header merge and cleanup -/

/-- C10: `process_single_sheet` returns a record count of 0 with the
destination file untouched whenever loading fails or the cleaned table is
empty; the output file is opened (truncating write) only on the branch
where at least one cleaned data row exists, and the reported count is the
number of records written. -/
theorem C10_no_write_without_rows (g : Grid) (cfg : SheetCfg) :
    (load_and_clean_sheet_row g cfg = none →
      process_single_sheet g cfg = (0, FileAction.untouched)) ∧
    (∀ df meta, load_and_clean_sheet_row g cfg = some (df, meta) → df.rows = [] →
      process_single_sheet g cfg = (0, FileAction.untouched)) ∧
    (∀ n act, process_single_sheet g cfg = (n, act) → act ≠ FileAction.untouched →
      ∃ df meta recs, load_and_clean_sheet_row g cfg = some (df, meta) ∧
        df.rows ≠ [] ∧ act = FileAction.written recs ∧ recs ≠ [] ∧ n = recs.length) := by
  refine ⟨?_, ?_, ?_⟩
  · intro hnone
    unfold process_single_sheet
    rw [hnone]
  · intro df meta hsome hrows
    unfold process_single_sheet
    rw [hsome]
    simp [hrows]
  · intro n act heq hact
    cases hload : load_and_clean_sheet_row g cfg with
    | none =>
      exfalso
      unfold process_single_sheet at heq
      rw [hload] at heq
      cases heq
      exact hact rfl
    | some p =>
      obtain ⟨df, meta⟩ := p
      unfold process_single_sheet at heq
      rw [hload] at heq
      have heq' : (if df.rows.isEmpty = true then ((0 : ℕ), FileAction.untouched)
          else ((formatRecords df meta).length,
            FileAction.written (formatRecords df meta))) = (n, act) := heq
      clear heq
      by_cases hrows : df.rows.isEmpty = true
      · exfalso
        rw [if_pos hrows] at heq'
        cases heq'
        exact hact rfl
      · rw [if_neg hrows] at heq'
        cases heq'
        refine ⟨df, meta, formatRecords df meta, rfl, ?_, rfl, ?_, rfl⟩
        · intro hnil
          rw [hnil] at hrows
          exact hrows rfl
        · unfold formatRecords
          intro hnil
          rw [List.map_eq_nil_iff] at hnil
          rw [hnil] at hrows
          exact hrows rfl

/-- Witness for `C10_no_write_without_rows`: a header request beyond the
sheet makes the load fail, and the destination is untouched. -/
theorem C10_no_write_without_rows_witness :
    load_and_clean_sheet_row C10witGrid ⟨5, 1, []⟩ = none ∧
    process_single_sheet C10witGrid ⟨5, 1, []⟩ = (0, FileAction.untouched) :=
  ⟨by decide, (C10_no_write_without_rows C10witGrid ⟨5, 1, []⟩).1 (by decide)⟩

/-! ## Claim C3 — the end-to-end scenario -/

/-- C3 counterexample.  On the scenario sheet, `excluded_rows = [4]` maps to
the data block's second row — the surviving all-blank sheet row, not the
South row: the blank row reaches the data block because the three-column
frame keeps it as an all-NaN row.  Exclusion removes that blank row (which
the final null-row pruning would have removed anyway), so extraction still
yields both the North and the South records, not the single North record
the claim predicts. -/
theorem C3_counterexample :
    process_single_sheet C3grid ⟨2, 1, [ExclEntry.int 4]⟩ =
      (2, FileAction.written
        [[("Region", JValue.jstr "North"), ("Sales", JValue.jint 100),
          ("Qty", JValue.jint 5), ("ExtraInfo", JValue.jstr "Report 2024-01-01")],
         [("Region", JValue.jstr "South"), ("Sales", JValue.jint 200),
          ("Qty", JValue.jint 7), ("ExtraInfo", JValue.jstr "Report 2024-01-01")]]) ∧
    process_single_sheet C3grid ⟨2, 1, [ExclEntry.int 4]⟩ ≠
      (1, FileAction.written
        [[("Region", JValue.jstr "North"), ("Sales", JValue.jint 100),
          ("Qty", JValue.jint 5), ("ExtraInfo", JValue.jstr "Report 2024-01-01")]]) := by
  decide

/-- C3 (amended): on the spec's scenario sheet with `header_row = 2`,
`merge_rows = 1`, extraction with no exclusions yields exactly the North
and South records, each carrying `ExtraInfo = "Report 2024-01-01"`, the
fully blank sheet row surviving into the data block as an all-null row that
the final null-row pruning removes.  With `excluded_rows = [4]` the
excluded original row is that blank row, so both records still remain; the
South record sits at original row 5, and `excluded_rows = [5]` leaves
exactly the North record. -/
theorem C3_end_to_end_scenario :
    process_single_sheet C3grid ⟨2, 1, []⟩ =
      (2, FileAction.written
        [[("Region", JValue.jstr "North"), ("Sales", JValue.jint 100),
          ("Qty", JValue.jint 5), ("ExtraInfo", JValue.jstr "Report 2024-01-01")],
         [("Region", JValue.jstr "South"), ("Sales", JValue.jint 200),
          ("Qty", JValue.jint 7), ("ExtraInfo", JValue.jstr "Report 2024-01-01")]]) ∧
    process_single_sheet C3grid ⟨2, 1, [ExclEntry.int 4]⟩ =
      (2, FileAction.written
        [[("Region", JValue.jstr "North"), ("Sales", JValue.jint 100),
          ("Qty", JValue.jint 5), ("ExtraInfo", JValue.jstr "Report 2024-01-01")],
         [("Region", JValue.jstr "South"), ("Sales", JValue.jint 200),
          ("Qty", JValue.jint 7), ("ExtraInfo", JValue.jstr "Report 2024-01-01")]]) ∧
    process_single_sheet C3grid ⟨2, 1, [ExclEntry.int 5]⟩ =
      (1, FileAction.written
        [[("Region", JValue.jstr "North"), ("Sales", JValue.jint 100),
          ("Qty", JValue.jint 5), ("ExtraInfo", JValue.jstr "Report 2024-01-01")]]) := by
  decide

/-! ## Claim C4 — column mode versus transpose-then-row-mode -/

end KBL
